import Mathlib

/-!
Verification development for the TalentScout hiring-assistant program
(src/main.py).  The Python source is shallowly embedded: its pure string
processing is translated to structural recursion over `List Char` (Lean's
`String` is a structure over `List Char`, which the kernel evaluates), the
external text-generation service is modelled by the reply it produces
(`Option String`, `none` meaning the call raised an exception), and the
Streamlit session loop is modelled as an explicit state machine over the
fields of `st.session_state`, one `step` per script run.
-/

namespace TalentScout

/-! ## String helpers

Python string primitives used by src/main.py, implemented by structural
recursion so that concrete runs evaluate inside the kernel.  `strTrim` is
Python `str.strip()` (the source only ever strips ASCII whitespace),
`wordCount` is `len(s.strip().split())`, `strRemoveAll` is
`s.replace(pat, "")` (removing every occurrence), `strLines` is the
line-splitting-plus-per-line-strip that both parsers in the source perform. -/

def trimChars (cs : List Char) : List Char :=
  ((cs.dropWhile Char.isWhitespace).reverse.dropWhile Char.isWhitespace).reverse

def strTrim (s : String) : String := (trimChars s.toList).asString

def strLower (s : String) : String := (s.toList.map Char.toLower).asString

def strUpper (s : String) : String := (s.toList.map Char.toUpper).asString

def strStartsWith (s m : String) : Bool := m.toList.isPrefixOf s.toList

def splitCharsOn (p : Char → Bool) : List Char → List (List Char)
  | [] => [[]]
  | c :: cs =>
    let r := splitCharsOn p cs
    if p c then [] :: r else (c :: r.headD []) :: r.tail

def strSplitOn (sep : Char) (s : String) : List String :=
  (splitCharsOn (fun c => c = sep) s.toList).map List.asString

def removeAllAux (pat : List Char) : Nat → List Char → List Char
  | _, [] => []
  | 0, cs => cs
  | fuel + 1, c :: cs =>
    if pat.isPrefixOf (c :: cs) then removeAllAux pat fuel ((c :: cs).drop pat.length)
    else c :: removeAllAux pat fuel cs

def strRemoveAll (pat s : String) : String :=
  (removeAllAux pat.toList s.toList.length s.toList).asString

def strLines (s : String) : List String :=
  ((splitCharsOn (fun c => c = '\n') (trimChars s.toList)).map trimChars).map List.asString

def wordCount (s : String) : Nat :=
  ((splitCharsOn Char.isWhitespace (trimChars s.toList)).filter (fun w => w ≠ [])).length

/-! ## Input validation -/

structure ValidationResult where
  valid : Bool
  reason : String
  message : String
deriving DecidableEq

/-- Embeds `HiringAssistant.validate_user_input` (src/main.py lines 283-303).
The Python function takes only the text: it has no technical-context flag, so
the word-count rule always applies.  Rules are evaluated in source order,
first match wins. -/
def validate_user_input (userInput : String) : ValidationResult :=
  let inputLength := (strTrim userInput).length
  let wordC := wordCount userInput
  if inputLength = 0 then
    ⟨false, "blank", "I didn\x27t receive any input from you. Could you please provide an answer?"⟩
  else if inputLength < 3 then
    ⟨false, "too_short", "Your response seems very brief. Could you please provide more details?"⟩
  else if (strLower userInput).toList.dedup.length < 3 ∧ inputLength > 5 then
    ⟨false, "gibberish", "I\x27m having trouble understanding your response. Could you please rephrase it?"⟩
  else if wordC < 3 then
    ⟨false, "insufficient_detail", "Your technical answer seems quite brief. Could you provide more detail or explanation?"⟩
  else ⟨true, "good", ""⟩

def isLocalChar (c : Char) : Bool :=
  c.isAlphanum || c = '.' || c = '_' || c = '%' || c = '+' || c = '-'

def isDomainChar (c : Char) : Bool := c.isAlphanum || c = '.' || c = '-'

/-- Embeds `HiringAssistant.validate_email` (src/main.py lines 172-175):
`re.match` of `^[a-zA-Z0-9._%+-]+@[a-zA-Z0-9.-]+\.[a-zA-Z]{2,}$`,
characterized structurally.  Neither character class contains `@`, so a match
must split as `local@domain` at the unique `@`; the domain must end in a dot
followed by at least two letters, with a nonempty `[a-zA-Z0-9.-]+` part
before that dot (choosing the last dot is complete, because every character
after the chosen dot must be a letter). -/
def validate_email (email : String) : Bool :=
  match strSplitOn '@' email with
  | [localPart, domain] =>
    let parts := strSplitOn '.' domain
    let tld := (parts.getLastD "").toList
    !localPart.toList.isEmpty && localPart.toList.all isLocalChar &&
    decide (parts.length ≥ 2) && decide (tld.length ≥ 2) && tld.all Char.isAlpha &&
    (decide (parts.dropLast.length ≥ 2) || parts.dropLast.any (fun p => !p.toList.isEmpty)) &&
    parts.dropLast.all (fun p => p.toList.all isDomainChar)
  | _ => false

/-- Embeds `HiringAssistant.validate_phone` (src/main.py lines 177-181).  The
compiled regex in the source is unused: the function only checks that the
input, reduced to digits and plus signs, has length 10 to 15. -/
def validate_phone (phone : String) : Bool :=
  let cleaned := phone.toList.filter (fun c => c.isDigit || c = '+')
  decide (10 ≤ cleaned.length) && decide (cleaned.length ≤ 15)

/-! ## Question generation -/

/-- One entry of the question list.  The Python code builds plain dicts: the
`difficulty` and `question` keys may each be absent (`none`), and
`final_evaluation_type` is attached later by the interview loop. -/
structure Question where
  difficulty : Option String
  question : Option String
  final_evaluation_type : Option String
deriving DecidableEq

/-- `if current_question: questions.append(current_question)` (src/main.py
lines 250-251 and 256-257): the entry in progress is appended when nonempty. -/
def flushCurrent (cur : Option Question) (acc : List Question) : List Question :=
  match cur with
  | some q => acc ++ [q]
  | none => acc

/-- Loop body of `HiringAssistant.parse_questions` (src/main.py lines 246-257).
`cur = none` models the initial empty dict `{}` (falsy in Python); a
`QUESTION:` line seen while the dict is still empty mutates it into a
difficulty-less entry, exactly as in the source. -/
def parseQuestionsGo : List String → Option Question → List Question → List Question
  | [], cur, acc => flushCurrent cur acc
  | line :: rest, cur, acc =>
    if strStartsWith line "DIFFICULTY:" then
      parseQuestionsGo rest (some ⟨some (strTrim (strRemoveAll "DIFFICULTY:" line)), none, none⟩)
        (flushCurrent cur acc)
    else if strStartsWith line "QUESTION:" then
      let txt := strTrim (strRemoveAll "QUESTION:" line)
      let cur2 := match cur with
        | some q => some ⟨q.difficulty, some txt, q.final_evaluation_type⟩
        | none => some ⟨none, some txt, none⟩
      parseQuestionsGo rest cur2 acc
    else parseQuestionsGo rest cur acc

/-- Embeds `HiringAssistant.parse_questions` (src/main.py lines 241-259):
strip the response, split into lines, strip each line, scan for
`DIFFICULTY:` / `QUESTION:` markers, and keep only the first 4 entries
(`return questions[:4]`). -/
def parse_questions (responseText : String) : List Question :=
  (parseQuestionsGo (strLines responseText) none []).take 4

/-- Embeds `HiringAssistant.get_fallback_questions` (src/main.py lines
261-281): the primary technology token is the text before the first comma of
the tech stack (or `programming` when the stack is the empty string, which is
falsy in Python), and the four templates are fixed. -/
def get_fallback_questions (techStack : String) : List Question :=
  let tech := if techStack = "" then "programming"
              else strTrim ((strSplitOn ',' techStack).headD "")
  [⟨some "Easy", some ("Explain the basic concepts and principles of " ++ tech ++ ". What are its main features and use cases?"), none⟩,
   ⟨some "Easy", some ("What are the key differences between " ++ tech ++ " and similar technologies? When would you choose " ++ tech ++ " over alternatives?"), none⟩,
   ⟨some "Medium", some ("Describe a real-world scenario where you would use " ++ tech ++ ". How would you implement it and what challenges might you face?"), none⟩,
   ⟨some "Hard", some ("Explain how you would optimize a " ++ tech ++ " application for performance and scalability. What best practices would you follow?"), none⟩]

/-- The list comprehension `[q['difficulty'].lower() for q in questions]`
(src/main.py line 232): `none` models the `KeyError` raised when an entry has
no difficulty, which the surrounding `try` turns into the fallback path. -/
def lowerDifficulties : List Question → Option (List String)
  | [] => some []
  | q :: qs =>
    match q.difficulty, lowerDifficulties qs with
    | some d, some ds => some (strLower d :: ds)
    | _, _ => none

/-- Embeds `HiringAssistant.generate_technical_questions` (src/main.py lines
183-239).  The experience level and language only shape the prompt sent to
the external service, whose reply is modelled by `serviceResponse` (`none`
meaning the call raised, line 237); they do not otherwise affect the result. -/
def generate_technical_questions (techStack _expLevel _language : String)
    (serviceResponse : Option String) : List Question :=
  match serviceResponse with
  | none => get_fallback_questions techStack
  | some text =>
    let questions := parse_questions text
    if questions.length ≠ 4 then get_fallback_questions techStack
    else
      match lowerDifficulties questions with
      | none => get_fallback_questions techStack
      | some diffs =>
        if diffs = ["easy", "easy", "medium", "hard"] then questions
        else get_fallback_questions techStack

/-! ## Answer evaluation -/

structure EvalResult where
  is_adequate : Bool
  feedback : String
  evaluation_type : String
deriving DecidableEq

/-- Loop body of the reply parser in `HiringAssistant.evaluate_answer`
(src/main.py lines 377-382): scan the (stripped) lines, the last
`EVALUATION:` and `FEEDBACK:` lines win. -/
def evalScan (acc : String × String) (line : String) : String × String :=
  if strStartsWith line "EVALUATION:" then
    (strUpper (strTrim (strRemoveAll "EVALUATION:" line)), acc.2)
  else if strStartsWith line "FEEDBACK:" then
    (acc.1, strTrim (strRemoveAll "FEEDBACK:" line))
  else acc

/-- Embeds `HiringAssistant.evaluate_answer` (src/main.py lines 305-400).
The question, tech stack and language parameters of the Python function only
shape the prompt; the service reply is modelled by `serviceReply` (`none`
meaning the call raised, line 398).  The missing-API-key early return (line
307) cannot occur in a running session because `initialize_groq` stops the
app, and is not modelled.  Input validation runs before the service call; an
unrecognized or absent `EVALUATION:` label leaves `evaluation_type` as the
scanned text (possibly the empty string) with no further fallback. -/
def evaluate_answer (answer : String) (serviceReply : Option String) : EvalResult :=
  let validation := validate_user_input answer
  if validation.valid = false then
    ⟨false, validation.message, "NEEDS_CLARIFICATION"⟩
  else
    match serviceReply with
    | none =>
      ⟨false, "An error occurred while evaluating your answer. Please try again.", "ERROR"⟩
    | some raw =>
      let parsed := (strLines raw).foldl evalScan ("", "")
      let evalType := parsed.1
      let feedback0 := parsed.2
      let feedback :=
        if feedback0 = "" then
          if evalType = "ADEQUATE" then "Good answer! Moving to the next question."
          else if evalType = "NEEDS_CLARIFICATION" then "Could you please provide more technical details or examples?"
          else "Your answer doesn\x27t seem to address the question. Could you please try again?"
        else feedback0
      ⟨evalType == "ADEQUATE", feedback, evalType⟩

/-! ## The session state machine

`st.session_state` fields that drive control flow (src/main.py lines
527-540), and one `step` per Streamlit script run: the `if/elif` chain on
`st.session_state.stage` (lines 560-908) executes exactly one stage arm per
run, handling the widget events fired by the previous render; `st.rerun()`
then starts the next run.  The chat-history log is not modelled: no claim
below depends on message contents. -/

inductive Stage
  | consent
  | form
  | interview
  | completed
  | ended
deriving DecidableEq

structure SessionState where
  stage : Stage
  current_question : Nat
  current_question_retries : Nat
  questions : List Question
deriving DecidableEq

def initialState : SessionState := ⟨.consent, 0, 0, []⟩

/-- `st.session_state.questions[i]['final_evaluation_type'] = tag`
(src/main.py lines 781, 803). -/
def tagQuestion : List Question → Nat → String → List Question
  | [], _, _ => []
  | q :: qs, 0, tag => ⟨q.difficulty, q.question, some tag⟩ :: qs
  | q :: qs, n + 1, tag => q :: tagQuestion qs n tag

/-- The exit-keyword test of the interview answer handler (src/main.py line
747): `user_input.strip().lower() in ['end', 'quit', 'stop', 'exit']`. -/
def isExitInput (input : String) : Bool :=
  ["end", "quit", "stop", "exit"].contains (strLower (strTrim input))

/-- The completion check at the end of the Submit Answer handler (src/main.py
lines 815-817): `if current_question >= len(questions) and stage != 'ended':
stage = 'completed'`. -/
def finishTurn (s1 : SessionState) : SessionState :=
  if s1.questions.length ≤ s1.current_question ∧ s1.stage ≠ .ended then
    ⟨.completed, s1.current_question, s1.current_question_retries, s1.questions⟩
  else s1

/-- Embeds the Submit Answer handler of the interview arm (src/main.py lines
743-820): exit keywords are checked first, then blank input (a warning, no
state change), then the answer is evaluated and the retry/advance logic runs;
the completion check (`finishTurn`) runs at the end of the handler in every
branch. -/
def submitAnswer (s : SessionState) (userInput : String) (serviceReply : Option String) :
    SessionState :=
  finishTurn
    (if isExitInput userInput then
      ⟨.ended, s.current_question, s.current_question_retries, s.questions⟩
    else if strTrim userInput = "" then s
    else
      let res := evaluate_answer userInput serviceReply
      if res.is_adequate then
        ⟨s.stage, s.current_question + 1, 0,
          tagQuestion s.questions s.current_question res.evaluation_type⟩
      else if s.current_question_retries + 1 < 2 then
        ⟨s.stage, s.current_question, s.current_question_retries + 1, s.questions⟩
      else
        ⟨s.stage, s.current_question + 1, 0,
          tagQuestion s.questions s.current_question "FAILED_ATTEMPTS"⟩)

/-- The six text fields of the candidate form plus the experience selectbox
(src/main.py lines 594-609). -/
structure FormInput where
  full_name : String
  email : String
  phone : String
  experience : String
  position : String
  location : String
  tech_stack : String
deriving DecidableEq

/-- Field-level validation of the form submission (src/main.py lines
613-628): the submission is rejected when any required field is blank or the
email or phone check fails.  There is no exit-keyword test anywhere in the
form arm. -/
def formHasErrors (i : FormInput) : Bool :=
  decide (strTrim i.full_name = "") ||
  decide (strTrim i.email = "") || !validate_email i.email ||
  decide (strTrim i.phone = "") || !validate_phone i.phone ||
  decide (strTrim i.position = "") ||
  decide (strTrim i.location = "") ||
  decide (strTrim i.tech_stack = "")

/-- `exp_years` (src/main.py line 648): the text before the first dash of the
experience bucket, or the bucket with `+` removed. -/
def expYears (experience : String) : String :=
  if experience.toList.contains '-' then (strSplitOn '-' experience).headD ""
  else strRemoveAll "+" experience

/-- Embeds the form-submission handler (src/main.py lines 613-661): on
validation errors the state is unchanged (errors are rendered); otherwise the
questions are generated synchronously and the stage becomes `interview`.  The
UI language only shapes the generation prompt and is absorbed into
`serviceResponse`. -/
def formStep (s : SessionState) (input : FormInput) (serviceResponse : Option String) :
    SessionState :=
  if formHasErrors input then s
  else
    ⟨.interview, s.current_question, s.current_question_retries,
      generate_technical_questions input.tech_stack (expYears input.experience) "English"
        serviceResponse⟩

/-- The widget events a script run can handle, one constructor per handler in
src/main.py: the consent button (line 577), the form submission (line 613),
the Submit Answer button (line 743), the End Interview button (line 823), the
Start New Interview button (lines 870, 904), and `refresh` for any rerun in
which no handler fires (for example changing the sidebar language selector,
or the automatic `st.rerun()` after a stage change). -/
inductive Event
  | consentAccept
  | formSubmit (input : FormInput) (serviceResponse : Option String)
  | answerSubmit (input : String) (serviceReply : Option String)
  | endButton
  | refresh
  | restart
deriving DecidableEq

/-- One script run: dispatch on the entry stage exactly as the `if/elif`
chain does (src/main.py lines 560-908).  The Submit Answer and End Interview
buttons are only rendered while a current question exists (line 724).  In the
interview arm the questions list is never empty in a reachable state (the
form arm populates it), so the regeneration block of lines 694-721 is a
no-op and is not modelled.  Events that have no handler in the entry stage
leave the state unchanged. -/
def step (s : SessionState) (e : Event) : SessionState :=
  match s.stage, e with
  | .consent, .consentAccept =>
    ⟨.form, s.current_question, s.current_question_retries, s.questions⟩
  | .form, .formSubmit input svc => formStep s input svc
  | .interview, .answerSubmit input svc =>
    if s.current_question < s.questions.length then submitAnswer s input svc else s
  | .interview, .endButton =>
    if s.current_question < s.questions.length then
      ⟨.ended, s.current_question, s.current_question_retries, s.questions⟩
    else s
  | .completed, .restart => initialState
  | .ended, .restart => initialState
  | _, _ => s

def runEvents (s : SessionState) (es : List Event) : SessionState := es.foldl step s

/-- The Completed and Ended arms call `save_candidate_data` unconditionally at
the top of the arm, before the restart button is handled (src/main.py lines
839-849 and 877-888): a run saves exactly when its entry stage is terminal. -/
def savesInRun (s : SessionState) : Nat :=
  if s.stage = .completed ∨ s.stage = .ended then 1 else 0

/-- A sequence of script runs together with the number of
`save_candidate_data` invocations it performs. -/
def runTrace : SessionState → List Event → SessionState × Nat
  | s, [] => (s, 0)
  | s, e :: es =>
    let r := runTrace (step s e) es
    (r.1, savesInRun s + r.2)

/-- The completion-rate computation of `HiringAssistant.save_candidate_data`
(src/main.py lines 434-436): `total_questions = len(data["questions"])`;
`completion_rate = total_questions / 4 if total_questions > 0 else 0` — the
rate is computed from the length of the generated question list, not from the
number of questions answered. -/
def completion_rate (dataQuestions : List Question) : Rat :=
  let totalQuestions := dataQuestions.length
  if totalQuestions > 0 then (totalQuestions : Rat) / 4 else 0

/-! ## Concrete fixtures used by witnesses and counterexamples -/

/-- A form submission that passes every field check. -/
def goodForm : FormInput :=
  ⟨"Ana", "ana@x.com", "+14155550100", "1-3", "Backend Engineer", "Lisbon", "Python, SQL"⟩

/-- Every field set to the exit keyword `stop`. -/
def stopForm : FormInput :=
  ⟨"stop", "stop", "stop", "stop", "stop", "stop", "stop"⟩

/-- An answer that passes `validate_user_input`. -/
def goodAnswer : String := "I use caching layers to reduce database load"

def adequateReply : Option String := some "EVALUATION: ADEQUATE\nFEEDBACK: Good."

def needsClarReply : Option String :=
  some "EVALUATION: NEEDS_CLARIFICATION\nFEEDBACK: More detail please."

/-- The session state after consenting and submitting a valid form under
service failure: interview stage, fallback questions, index and retries 0. -/
def interviewState0 : SessionState :=
  runEvents initialState [.consentAccept, .formSubmit goodForm none]

/-- The session state just after consenting: form stage. -/
def formState0 : SessionState := runEvents initialState [.consentAccept]

/-- Consent, valid form, then the End Interview button: reaches `ended` with
no question answered. -/
def endedTrace : List Event := [.consentAccept, .formSubmit goodForm none, .endButton]

/-- Consent, valid form, one adequately answered question, then the End
Interview button: reaches `ended` with exactly one question answered. -/
def answeredOneTrace : List Event :=
  [.consentAccept, .formSubmit goodForm none, .answerSubmit goodAnswer adequateReply,
   .endButton]

/-- A generation-service response from which five difficulty/question pairs
are recoverable, the first four in the mandated order. -/
def fivePairResponse : String :=
  "DIFFICULTY: Easy\nQUESTION: q1\nDIFFICULTY: Easy\nQUESTION: q2\nDIFFICULTY: Medium\nQUESTION: q3\nDIFFICULTY: Hard\nQUESTION: q4\nDIFFICULTY: Hard\nQUESTION: q5"

/-- A generation-service response with four difficulty markers in the
mandated order but only three question texts. -/
def missingTextResponse : String :=
  "DIFFICULTY: Easy\nQUESTION: a\nDIFFICULTY: Easy\nQUESTION: b\nDIFFICULTY: Medium\nQUESTION: c\nDIFFICULTY: Hard"

/-- A generation-service response in which a `QUESTION:` line precedes the
first `DIFFICULTY:` line. -/
def questionFirstResponse : String :=
  "QUESTION: orphan\nDIFFICULTY: Easy\nQUESTION: real"

/-- An evaluation-service reply containing no `EVALUATION:` label. -/
def noLabelReply : String := "That answer looks fine to me."

/-- The inductive session invariant: which index/question-list shapes each
stage admits in a reachable state. -/
def Inv (s : SessionState) : Prop :=
  (s.stage = .consent → s.questions = [] ∧ s.current_question = 0) ∧
  (s.stage = .form → s.questions = [] ∧ s.current_question = 0) ∧
  (s.stage = .interview → s.questions.length = 4 ∧ s.current_question < 4) ∧
  (s.stage = .completed → s.questions.length = 4 ∧ s.current_question = 4) ∧
  (s.stage = .ended → s.questions.length = 4 ∧ s.current_question < 4)

/-! ## Helper lemmas -/

lemma tagQuestion_length (qs : List Question) (i : Nat) (tag : String) :
    (tagQuestion qs i tag).length = qs.length := by
  induction qs generalizing i with
  | nil => rfl
  | cons q qs ih =>
    cases i with
    | zero => rfl
    | succ n => simp [tagQuestion, ih n]

lemma tagQuestion_get? (qs : List Question) (i : Nat) (tag : String) :
    (tagQuestion qs i tag).get? i
      = (qs.get? i).map fun q => ⟨q.difficulty, q.question, some tag⟩ := by
  induction qs generalizing i with
  | nil => cases i <;> rfl
  | cons q qs ih =>
    cases i with
    | zero => rfl
    | succ n => simpa [tagQuestion] using ih n

lemma fallback_length (t : String) : (get_fallback_questions t).length = 4 := rfl

lemma fallback_diffs (t : String) :
    (get_fallback_questions t).map (fun q => q.difficulty.map strLower)
      = [some "easy", some "easy", some "medium", some "hard"] := rfl

lemma lowerDifficulties_map (qs : List Question) (ds : List String)
    (h : lowerDifficulties qs = some ds) :
    qs.map (fun q => q.difficulty.map strLower) = ds.map some := by
  induction qs generalizing ds with
  | nil =>
    simp only [lowerDifficulties, Option.some.injEq] at h
    subst h; rfl
  | cons q qs ih =>
    cases hd : q.difficulty with
    | none => simp [lowerDifficulties, hd] at h
    | some d =>
      cases hrest : lowerDifficulties qs with
      | none => simp [lowerDifficulties, hd, hrest] at h
      | some ds2 =>
        simp only [lowerDifficulties, hd, hrest, Option.some.injEq] at h
        subst h
        simp [ih ds2 hrest, hd]

lemma generate_length (t e l : String) (svc : Option String) :
    (generate_technical_questions t e l svc).length = 4 := by
  cases svc with
  | none => rfl
  | some text =>
    unfold generate_technical_questions
    by_cases hlen : (parse_questions text).length ≠ 4
    · simp [hlen, fallback_length]
    · simp only [hlen, if_false]
      cases lowerDifficulties (parse_questions text) with
      | none => exact fallback_length t
      | some ds =>
        by_cases hds : ds = ["easy", "easy", "medium", "hard"]
        · simp only [hds, if_true]
          omega
        · simp [hds, fallback_length]

lemma generate_diffs (t e l : String) (svc : Option String) :
    (generate_technical_questions t e l svc).map (fun q => q.difficulty.map strLower)
      = [some "easy", some "easy", some "medium", some "hard"] := by
  cases svc with
  | none => exact fallback_diffs t
  | some text =>
    unfold generate_technical_questions
    by_cases hlen : (parse_questions text).length ≠ 4
    · simp [hlen, fallback_diffs]
    · simp only [hlen, if_false]
      cases hld : lowerDifficulties (parse_questions text) with
      | none => exact fallback_diffs t
      | some ds =>
        by_cases hds : ds = ["easy", "easy", "medium", "hard"]
        · simp only [hds, if_true]
          have := lowerDifficulties_map _ _ hld
          rw [hds] at this
          simpa using this
        · simp [hds, fallback_diffs]

lemma is_adequate_type (a : String) (r : Option String)
    (h : (evaluate_answer a r).is_adequate = true) :
    (evaluate_answer a r).evaluation_type = "ADEQUATE" := by
  by_cases hv : (validate_user_input a).valid = false
  · simp only [evaluate_answer, hv, if_true] at h
    simp at h
  · cases r with
    | none =>
      simp only [evaluate_answer, hv, if_false] at h
      simp at h
    | some raw =>
      simp only [evaluate_answer, hv, if_false] at h ⊢
      exact eq_of_beq h

lemma evalScan_foldl_no_label (lines : List String) (acc : String × String)
    (h : (lines.all fun l => !(strStartsWith l "EVALUATION:")) = true) :
    (lines.foldl evalScan acc).1 = acc.1 := by
  induction lines generalizing acc with
  | nil => rfl
  | cons l ls ih =>
    simp only [List.all_cons, Bool.and_eq_true, Bool.not_eq_eq_eq_not, Bool.not_true] at h
    rw [List.foldl_cons, ih _ h.2]
    unfold evalScan
    rw [h.1]
    simp only [Bool.false_eq_true, if_false]
    split <;> rfl

lemma step_refresh (s : SessionState) : step s .refresh = s := by
  obtain ⟨stg, cur, ret, qs⟩ := s
  cases stg <;> rfl

lemma runEvents_cons (s : SessionState) (e : Event) (es : List Event) :
    runEvents s (e :: es) = runEvents (step s e) es := rfl

lemma runTrace_append (s : SessionState) (es fs : List Event) :
    runTrace s (es ++ fs)
      = ((runTrace (runEvents s es) fs).1,
         (runTrace s es).2 + (runTrace (runEvents s es) fs).2) := by
  induction es generalizing s with
  | nil => simp [runTrace, runEvents]
  | cons e es ih =>
    have h1 : runTrace s ((e :: es) ++ fs)
        = ((runTrace (step s e) (es ++ fs)).1,
           savesInRun s + (runTrace (step s e) (es ++ fs)).2) := rfl
    have h2 : runTrace s (e :: es)
        = ((runTrace (step s e) es).1, savesInRun s + (runTrace (step s e) es).2) := rfl
    rw [h1, h2, ih (step s e), runEvents_cons]
    simp [Nat.add_assoc]

lemma runTrace_replicate_refresh (n : Nat) (s : SessionState) (h : s.stage = .ended) :
    runTrace s (List.replicate n Event.refresh) = (s, n) := by
  induction n with
  | zero => rfl
  | succ m ih =>
    rw [List.replicate_succ]
    simp only [runTrace, step_refresh, ih]
    simp [savesInRun, h, Nat.add_comm]

lemma finishTurn_proj (s1 : SessionState) :
    (finishTurn s1).current_question = s1.current_question ∧
    (finishTurn s1).current_question_retries = s1.current_question_retries ∧
    (finishTurn s1).questions = s1.questions := by
  unfold finishTurn
  split <;> simp

/-- The branch structure of `submitAnswer` on a first non-adequate evaluation
outcome (retry counter 0): the session stays on the same question with the
retry counter at 1. -/
lemma submitAnswer_retry (s : SessionState) (input : String) (svc : Option String)
    (hstage : s.stage = .interview)
    (hidx : s.current_question < s.questions.length)
    (hret : s.current_question_retries = 0)
    (hx : isExitInput input = false) (hb : strTrim input ≠ "")
    (hna : (evaluate_answer input svc).is_adequate = false) :
    submitAnswer s input svc = ⟨.interview, s.current_question, 1, s.questions⟩ := by
  simp only [submitAnswer, hx, Bool.false_eq_true, if_false, hb, hna, hret, hstage]
  unfold finishTurn
  norm_num
  intro hle
  exact absurd hle (Nat.not_le.mpr hidx)

/-- The branch structure of `submitAnswer` on a second consecutive
non-adequate evaluation outcome (retry counter 1): force-advance, tag the
current question `FAILED_ATTEMPTS`, reset the retry counter. -/
lemma submitAnswer_force (s : SessionState) (input : String) (svc : Option String)
    (hret : s.current_question_retries = 1)
    (hx : isExitInput input = false) (hb : strTrim input ≠ "")
    (hna : (evaluate_answer input svc).is_adequate = false) :
    (submitAnswer s input svc).current_question = s.current_question + 1 ∧
    (submitAnswer s input svc).current_question_retries = 0 ∧
    (submitAnswer s input svc).questions
      = tagQuestion s.questions s.current_question "FAILED_ATTEMPTS" := by
  simp only [submitAnswer, hx, Bool.false_eq_true, if_false, hb, hna, hret]
  norm_num
  exact ⟨(finishTurn_proj _).1, (finishTurn_proj _).2.1, (finishTurn_proj _).2.2⟩

/-- The branch structure of `submitAnswer` on an adequate evaluation outcome:
advance, tag the current question with the evaluation type, reset the retry
counter. -/
lemma submitAnswer_adequate (s : SessionState) (input : String) (svc : Option String)
    (hx : isExitInput input = false) (hb : strTrim input ≠ "")
    (had : (evaluate_answer input svc).is_adequate = true) :
    (submitAnswer s input svc).current_question = s.current_question + 1 ∧
    (submitAnswer s input svc).current_question_retries = 0 ∧
    (submitAnswer s input svc).questions
      = tagQuestion s.questions s.current_question
          (evaluate_answer input svc).evaluation_type := by
  simp only [submitAnswer, hx, Bool.false_eq_true, if_false, hb, had, if_true]
  exact ⟨(finishTurn_proj _).1, (finishTurn_proj _).2.1, (finishTurn_proj _).2.2⟩

lemma inv_mk_consent (cur ret : Nat) (qs : List Question) (h1 : qs = []) (h2 : cur = 0) :
    Inv (SessionState.mk .consent cur ret qs) :=
  ⟨fun _ => ⟨h1, h2⟩, fun h => absurd h (by simp), fun h => absurd h (by simp),
   fun h => absurd h (by simp), fun h => absurd h (by simp)⟩

lemma inv_mk_form (cur ret : Nat) (qs : List Question) (h1 : qs = []) (h2 : cur = 0) :
    Inv (SessionState.mk .form cur ret qs) :=
  ⟨fun h => absurd h (by simp), fun _ => ⟨h1, h2⟩, fun h => absurd h (by simp),
   fun h => absurd h (by simp), fun h => absurd h (by simp)⟩

lemma inv_mk_interview (cur ret : Nat) (qs : List Question) (h1 : qs.length = 4)
    (h2 : cur < 4) : Inv (SessionState.mk .interview cur ret qs) :=
  ⟨fun h => absurd h (by simp), fun h => absurd h (by simp), fun _ => ⟨h1, h2⟩,
   fun h => absurd h (by simp), fun h => absurd h (by simp)⟩

lemma inv_mk_completed (cur ret : Nat) (qs : List Question) (h1 : qs.length = 4)
    (h2 : cur = 4) : Inv (SessionState.mk .completed cur ret qs) :=
  ⟨fun h => absurd h (by simp), fun h => absurd h (by simp), fun h => absurd h (by simp),
   fun _ => ⟨h1, h2⟩, fun h => absurd h (by simp)⟩

lemma inv_mk_ended (cur ret : Nat) (qs : List Question) (h1 : qs.length = 4)
    (h2 : cur < 4) : Inv (SessionState.mk .ended cur ret qs) :=
  ⟨fun h => absurd h (by simp), fun h => absurd h (by simp), fun h => absurd h (by simp),
   fun h => absurd h (by simp), fun _ => ⟨h1, h2⟩⟩

lemma finishTurn_inv_interview (s1 : SessionState) (hstage : s1.stage = .interview)
    (hlen : s1.questions.length = 4) (hcur : s1.current_question ≤ 4) :
    Inv (finishTurn s1) := by
  obtain ⟨stg, cur, ret, qs⟩ := s1
  simp only at hstage hlen hcur
  subst hstage
  by_cases hc : qs.length ≤ cur
  · have he : finishTurn (SessionState.mk .interview cur ret qs)
        = SessionState.mk .completed cur ret qs := by
      unfold finishTurn
      rw [if_pos ⟨hc, by simp⟩]
    rw [he]
    exact inv_mk_completed cur ret qs hlen (by omega)
  · have he : finishTurn (SessionState.mk .interview cur ret qs)
        = SessionState.mk .interview cur ret qs := by
      unfold finishTurn
      rw [if_neg (fun hb => hc hb.1)]
    rw [he]
    exact inv_mk_interview cur ret qs hlen (by omega)

lemma finishTurn_inv_ended (s1 : SessionState) (hstage : s1.stage = .ended)
    (hlen : s1.questions.length = 4) (hcur : s1.current_question < 4) :
    Inv (finishTurn s1) := by
  obtain ⟨stg, cur, ret, qs⟩ := s1
  simp only at hstage hlen hcur
  subst hstage
  have he : finishTurn (SessionState.mk .ended cur ret qs)
      = SessionState.mk .ended cur ret qs := by
    unfold finishTurn
    rw [if_neg (fun hb => hb.2 rfl)]
  rw [he]
  exact inv_mk_ended cur ret qs hlen hcur

lemma inv_submitAnswer (s : SessionState) (input : String) (svc : Option String)
    (hstage : s.stage = .interview) (hlen : s.questions.length = 4)
    (hidx : s.current_question < 4) :
    Inv (submitAnswer s input svc) := by
  unfold submitAnswer
  by_cases h1 : isExitInput input = true
  · rw [if_pos h1]
    exact finishTurn_inv_ended _ rfl hlen hidx
  · rw [if_neg h1]
    by_cases h2 : strTrim input = ""
    · rw [if_pos h2]
      exact finishTurn_inv_interview _ hstage hlen (by omega)
    · rw [if_neg h2]
      dsimp only
      by_cases h3 : (evaluate_answer input svc).is_adequate = true
      · rw [if_pos h3]
        refine finishTurn_inv_interview _ hstage ?_ ?_
        · show (tagQuestion s.questions s.current_question _).length = 4
          rw [tagQuestion_length]; exact hlen
        · show s.current_question + 1 ≤ 4
          omega
      · rw [if_neg h3]
        by_cases h4 : s.current_question_retries + 1 < 2
        · rw [if_pos h4]
          refine finishTurn_inv_interview _ hstage hlen ?_
          show s.current_question ≤ 4
          omega
        · rw [if_neg h4]
          refine finishTurn_inv_interview _ hstage ?_ ?_
          · show (tagQuestion s.questions s.current_question _).length = 4
            rw [tagQuestion_length]; exact hlen
          · show s.current_question + 1 ≤ 4
            omega

lemma inv_step (s : SessionState) (e : Event) (h : Inv s) : Inv (step s e) := by
  obtain ⟨hcons, hform, hint, hcomp, hend⟩ := h
  obtain ⟨stg, cur, ret, qs⟩ := s
  cases stg with
  | consent =>
    cases e <;> try exact ⟨hcons, hform, hint, hcomp, hend⟩
    case consentAccept =>
      obtain ⟨hq, hc⟩ := hcons rfl
      simp only at hq hc
      subst hq; subst hc
      exact inv_mk_form 0 ret [] rfl rfl
  | form =>
    cases e <;> try exact ⟨hcons, hform, hint, hcomp, hend⟩
    case formSubmit input svc =>
      obtain ⟨hq, hc⟩ := hform rfl
      simp only at hq hc
      subst hq; subst hc
      show Inv (formStep _ input svc)
      unfold formStep
      by_cases herr : formHasErrors input = true
      · rw [if_pos herr]
        exact ⟨hcons, hform, hint, hcomp, hend⟩
      · rw [if_neg herr]
        exact inv_mk_interview 0 ret _ (generate_length _ _ _ _) (by omega)
  | interview =>
    obtain ⟨hlen, hcur⟩ := hint rfl
    simp only at hlen hcur
    cases e <;> try exact ⟨hcons, hform, hint, hcomp, hend⟩
    case answerSubmit input svc =>
      show Inv (if cur < qs.length then _ else _)
      by_cases hg : cur < qs.length
      · rw [if_pos hg]
        exact inv_submitAnswer ⟨.interview, cur, ret, qs⟩ input svc rfl hlen hcur
      · rw [if_neg hg]
        exact ⟨hcons, hform, hint, hcomp, hend⟩
    case endButton =>
      show Inv (if cur < qs.length then _ else _)
      by_cases hg : cur < qs.length
      · rw [if_pos hg]
        exact inv_mk_ended cur ret qs hlen hcur
      · rw [if_neg hg]
        exact ⟨hcons, hform, hint, hcomp, hend⟩
  | completed =>
    cases e <;> try exact ⟨hcons, hform, hint, hcomp, hend⟩
    case restart => exact inv_mk_consent 0 0 [] rfl rfl
  | ended =>
    cases e <;> try exact ⟨hcons, hform, hint, hcomp, hend⟩
    case restart => exact inv_mk_consent 0 0 [] rfl rfl

lemma inv_initial : Inv initialState := inv_mk_consent 0 0 [] rfl rfl

lemma inv_runEvents (es : List Event) (s : SessionState) (h : Inv s) :
    Inv (runEvents s es) := by
  induction es generalizing s with
  | nil => exact h
  | cons e es ih => exact ih (step s e) (inv_step s e h)

lemma flushCurrent_tail_diff (cur : Option Question) (acc : List Question)
    (h1 : ((acc.drop 1).all fun q => q.difficulty.isSome) = true)
    (h2 : acc ≠ [] → ∀ q, cur = some q → q.difficulty.isSome = true) :
    (((flushCurrent cur acc).drop 1).all fun q => q.difficulty.isSome) = true := by
  cases cur with
  | none => exact h1
  | some q =>
    show (((acc ++ [q]).drop 1).all fun q => q.difficulty.isSome) = true
    cases acc with
    | nil => rfl
    | cons a as =>
      have hq := h2 (by simp) q rfl
      simp only [List.cons_append, List.drop_succ_cons, List.drop_zero, List.all_append]
      simp only [List.drop_succ_cons, List.drop_zero] at h1
      simp [h1, hq]

lemma parseQuestionsGo_tail_diff (lines : List String) :
    ∀ (cur : Option Question) (acc : List Question),
      ((acc.drop 1).all fun q => q.difficulty.isSome) = true →
      (acc ≠ [] → ∀ q, cur = some q → q.difficulty.isSome = true) →
      (cur = none → acc = []) →
      (((parseQuestionsGo lines cur acc).drop 1).all fun q => q.difficulty.isSome) = true := by
  induction lines with
  | nil =>
    intro cur acc h1 h2 _
    exact flushCurrent_tail_diff cur acc h1 h2
  | cons line rest ih =>
    intro cur acc h1 h2 h3
    by_cases hd : strStartsWith line "DIFFICULTY:" = true
    · simp only [parseQuestionsGo]
      rw [if_pos hd]
      refine ih _ _ (flushCurrent_tail_diff cur acc h1 h2) ?_ ?_
      · intro _ q hq
        cases hq
        rfl
      · intro hcon
        exact absurd hcon (by simp)
    · by_cases hq : strStartsWith line "QUESTION:" = true
      · simp only [parseQuestionsGo]
        rw [if_neg hd, if_pos hq]
        cases cur with
        | none =>
          have hacc := h3 rfl
          subst hacc
          dsimp only
          refine ih _ _ rfl ?_ ?_
          · intro hacc2
            exact absurd rfl hacc2
          · intro hcon
            simp at hcon
        | some q0 =>
          dsimp only
          refine ih _ _ h1 ?_ ?_
          · intro hacc q2 hq2
            simp only [Option.some.injEq] at hq2
            subst hq2
            exact h2 hacc q0 rfl
          · intro hcon
            simp at hcon
      · simp only [parseQuestionsGo]
        rw [if_neg hd, if_neg hq]
        exact ih cur acc h1 h2 h3

lemma all_take (p : Question → Bool) (n : Nat) (l : List Question) (h : l.all p = true) :
    (l.take n).all p = true := by
  rw [List.all_eq_true] at h ⊢
  exact fun x hx => h x (List.take_subset n l hx)

lemma parse_tail_diff (text : String) :
    (((parse_questions text).drop 1).all fun q => q.difficulty.isSome) = true := by
  unfold parse_questions
  have h := parseQuestionsGo_tail_diff (strLines text) none [] rfl
    (fun hacc => absurd rfl hacc) (fun _ => rfl)
  rw [List.drop_take]
  exact all_take _ _ _ h

/-! ## Claim theorems -/

/-- C1: for every tech-stack string, experience value, language and service
response, `generate_technical_questions` returns exactly 4 questions whose
difficulty sequence, compared case-insensitively, is
`[Easy, Easy, Medium, Hard]`; under forced service failure (`none`) it
returns the deterministic fallback set, so the same input always yields the
same output. -/
theorem generate_questions_contract (techStack expLevel language : String)
    (svc : Option String) :
    (generate_technical_questions techStack expLevel language svc).length = 4 ∧
    (generate_technical_questions techStack expLevel language svc).map
        (fun q => q.difficulty.map strLower)
      = [some "easy", some "easy", some "medium", some "hard"] ∧
    generate_technical_questions techStack expLevel language none
      = get_fallback_questions techStack :=
  ⟨generate_length techStack expLevel language svc,
   generate_diffs techStack expLevel language svc, rfl⟩

/-- C2: in the Interview stage on a fresh question (retry counter 0), a
non-adequate evaluation outcome keeps the session on the same question with
the retry counter at 1; a second consecutive non-adequate outcome
force-advances the index, tags that question `FAILED_ATTEMPTS` and resets the
counter to 0; a non-adequate outcome followed by an adequate one advances the
index with tag `ADEQUATE` (not `FAILED_ATTEMPTS`) and the counter reset to 0. -/
theorem interview_retry_policy (s : SessionState) (a1 a2 a3 : String)
    (r1 r2 r3 : Option String)
    (hstage : s.stage = .interview)
    (hidx : s.current_question < s.questions.length)
    (hret : s.current_question_retries = 0)
    (hx1 : isExitInput a1 = false) (hb1 : strTrim a1 ≠ "")
    (hx2 : isExitInput a2 = false) (hb2 : strTrim a2 ≠ "")
    (hx3 : isExitInput a3 = false) (hb3 : strTrim a3 ≠ "")
    (hna1 : (evaluate_answer a1 r1).is_adequate = false)
    (hna2 : (evaluate_answer a2 r2).is_adequate = false)
    (had3 : (evaluate_answer a3 r3).is_adequate = true) :
    step s (.answerSubmit a1 r1) = ⟨.interview, s.current_question, 1, s.questions⟩ ∧
    ((step (step s (.answerSubmit a1 r1)) (.answerSubmit a2 r2)).current_question
        = s.current_question + 1 ∧
     (step (step s (.answerSubmit a1 r1)) (.answerSubmit a2 r2)).current_question_retries
        = 0 ∧
     ((step (step s (.answerSubmit a1 r1)) (.answerSubmit a2 r2)).questions.get?
          s.current_question).map Question.final_evaluation_type
        = some (some "FAILED_ATTEMPTS")) ∧
    ((step (step s (.answerSubmit a1 r1)) (.answerSubmit a3 r3)).current_question
        = s.current_question + 1 ∧
     (step (step s (.answerSubmit a1 r1)) (.answerSubmit a3 r3)).current_question_retries
        = 0 ∧
     ((step (step s (.answerSubmit a1 r1)) (.answerSubmit a3 r3)).questions.get?
          s.current_question).map Question.final_evaluation_type
        = some (some "ADEQUATE")) := by
  obtain ⟨stg, cur, ret, qs⟩ := s
  simp only at hstage hidx hret
  subst hstage
  subst hret
  have hstep1 : step (⟨.interview, cur, 0, qs⟩ : SessionState) (.answerSubmit a1 r1)
      = ⟨.interview, cur, 1, qs⟩ := by
    show (if cur < qs.length then submitAnswer ⟨.interview, cur, 0, qs⟩ a1 r1
          else ⟨.interview, cur, 0, qs⟩) = _
    rw [if_pos hidx]
    exact submitAnswer_retry _ a1 r1 rfl hidx rfl hx1 hb1 hna1
  have hstep2 : step (⟨.interview, cur, 1, qs⟩ : SessionState) (.answerSubmit a2 r2)
      = submitAnswer ⟨.interview, cur, 1, qs⟩ a2 r2 := by
    show (if cur < qs.length then submitAnswer ⟨.interview, cur, 1, qs⟩ a2 r2
          else ⟨.interview, cur, 1, qs⟩) = _
    rw [if_pos hidx]
  have hstep3 : step (⟨.interview, cur, 1, qs⟩ : SessionState) (.answerSubmit a3 r3)
      = submitAnswer ⟨.interview, cur, 1, qs⟩ a3 r3 := by
    show (if cur < qs.length then submitAnswer ⟨.interview, cur, 1, qs⟩ a3 r3
          else ⟨.interview, cur, 1, qs⟩) = _
    rw [if_pos hidx]
  have hforce := submitAnswer_force ⟨.interview, cur, 1, qs⟩ a2 r2 rfl hx2 hb2 hna2
  have hadeq := submitAnswer_adequate ⟨.interview, cur, 1, qs⟩ a3 r3 hx3 hb3 had3
  have htype := is_adequate_type a3 r3 had3
  rw [hstep1]
  refine ⟨rfl, ?_, ?_⟩
  · rw [hstep2]
    refine ⟨hforce.1, hforce.2.1, ?_⟩
    rw [hforce.2.2]
    show ((tagQuestion qs cur "FAILED_ATTEMPTS").get? cur).map Question.final_evaluation_type
        = some (some "FAILED_ATTEMPTS")
    rw [tagQuestion_get?, List.get?_eq_get hidx]
    rfl
  · rw [hstep3]
    refine ⟨hadeq.1, hadeq.2.1, ?_⟩
    rw [hadeq.2.2, htype]
    show ((tagQuestion qs cur "ADEQUATE").get? cur).map Question.final_evaluation_type
        = some (some "ADEQUATE")
    rw [tagQuestion_get?, List.get?_eq_get hidx]
    rfl

/-- C2 witness: the retry policy evaluated on the concrete post-form session
with a valid answer judged `NEEDS_CLARIFICATION` twice, or once followed by
`ADEQUATE`. -/
theorem interview_retry_policy_witness :
    (interviewState0.stage = .interview ∧
     interviewState0.current_question < interviewState0.questions.length ∧
     interviewState0.current_question_retries = 0 ∧
     isExitInput goodAnswer = false ∧ strTrim goodAnswer ≠ "" ∧
     (evaluate_answer goodAnswer needsClarReply).is_adequate = false ∧
     (evaluate_answer goodAnswer adequateReply).is_adequate = true) ∧
    (step interviewState0 (.answerSubmit goodAnswer needsClarReply)
        = ⟨.interview, interviewState0.current_question, 1, interviewState0.questions⟩ ∧
     ((step (step interviewState0 (.answerSubmit goodAnswer needsClarReply))
          (.answerSubmit goodAnswer needsClarReply)).current_question
        = interviewState0.current_question + 1 ∧
      (step (step interviewState0 (.answerSubmit goodAnswer needsClarReply))
          (.answerSubmit goodAnswer needsClarReply)).current_question_retries = 0 ∧
      ((step (step interviewState0 (.answerSubmit goodAnswer needsClarReply))
          (.answerSubmit goodAnswer needsClarReply)).questions.get?
            interviewState0.current_question).map Question.final_evaluation_type
        = some (some "FAILED_ATTEMPTS")) ∧
     ((step (step interviewState0 (.answerSubmit goodAnswer needsClarReply))
          (.answerSubmit goodAnswer adequateReply)).current_question
        = interviewState0.current_question + 1 ∧
      (step (step interviewState0 (.answerSubmit goodAnswer needsClarReply))
          (.answerSubmit goodAnswer adequateReply)).current_question_retries = 0 ∧
      ((step (step interviewState0 (.answerSubmit goodAnswer needsClarReply))
          (.answerSubmit goodAnswer adequateReply)).questions.get?
            interviewState0.current_question).map Question.final_evaluation_type
        = some (some "ADEQUATE"))) :=
  ⟨⟨by decide, by decide, by decide, by decide, by decide, by decide, by decide⟩,
   interview_retry_policy interviewState0 goodAnswer goodAnswer goodAnswer
     needsClarReply needsClarReply adequateReply
     (by decide) (by decide) (by decide) (by decide) (by decide) (by decide)
     (by decide) (by decide) (by decide) (by decide) (by decide) (by decide)⟩

/-- C3 counterexample: `stop` is an exit keyword, yet submitting it in every
field of the ProfileForm stage leaves the session in the form stage — the
form arm has no exit-keyword handling, so the claimed transition to `Ended`
does not happen there. -/
theorem form_stage_no_exit_keyword :
    isExitInput "stop" = true ∧
    (runEvents initialState [.consentAccept, .formSubmit stopForm none]).stage = .form ∧
    (runEvents initialState [.consentAccept, .formSubmit stopForm none]).stage ≠ .ended := by
  decide

/-- C3 (amended): an exit keyword (end/quit/stop/exit, case-insensitive on
the trimmed input) submitted in the Interview stage forces stage `Ended`
before blank-input validation and before answer evaluation, regardless of the
retry counter; the ProfileForm stage performs no exit-keyword check and a
form submission never yields `Ended`. -/
theorem exit_keyword_scope :
    (∀ (s : SessionState) (input : String) (svc : Option String),
      s.stage = .interview → s.current_question < s.questions.length →
      isExitInput input = true →
      (step s (.answerSubmit input svc)).stage = .ended) ∧
    (∀ (s : SessionState) (input : FormInput) (svc : Option String),
      s.stage = .form → (step s (.formSubmit input svc)).stage ≠ .ended) := by
  constructor
  · intro s input svc hstage hidx hexit
    obtain ⟨stg, cur, ret, qs⟩ := s
    simp only at hstage hidx
    subst hstage
    show ((if cur < qs.length then submitAnswer ⟨.interview, cur, ret, qs⟩ input svc
           else ⟨.interview, cur, ret, qs⟩)).stage = .ended
    rw [if_pos hidx]
    unfold submitAnswer
    rw [if_pos hexit]
    unfold finishTurn
    rw [if_neg (fun hb => hb.2 rfl)]
  · intro s input svc hstage
    obtain ⟨stg, cur, ret, qs⟩ := s
    simp only at hstage
    subst hstage
    show (formStep ⟨.form, cur, ret, qs⟩ input svc).stage ≠ .ended
    unfold formStep
    by_cases herr : formHasErrors input = true
    · rw [if_pos herr]
      simp
    · rw [if_neg herr]
      simp

/-- C3 witness: `"STOP "` submitted in the concrete post-form interview state
ends the session; the all-`stop` form submission does not. -/
theorem exit_keyword_scope_witness :
    (interviewState0.stage = .interview ∧
     interviewState0.current_question < interviewState0.questions.length ∧
     isExitInput "STOP " = true ∧
     (step interviewState0 (.answerSubmit "STOP " none)).stage = .ended) ∧
    (formState0.stage = .form ∧
     (step formState0 (.formSubmit stopForm none)).stage ≠ .ended) :=
  ⟨⟨by decide, by decide, by decide,
    exit_keyword_scope.1 interviewState0 "STOP " none (by decide) (by decide) (by decide)⟩,
   ⟨by decide, exit_keyword_scope.2 formState0 stopForm none (by decide)⟩⟩

/-- C4 counterexample: consenting, submitting a valid profile and pressing
End Interview reaches stage `Ended` with `current_question = 0`, so a session
in stage `Ended` need not have index 4. -/
theorem ended_with_index_zero :
    (runEvents initialState endedTrace).stage = .ended ∧
    (runEvents initialState endedTrace).current_question = 0 ∧
    (0 : Nat) ≠ 4 := by decide

/-- C4 (amended): in every reachable session state
`0 ≤ current_question ≤ 4`, and `current_question = 4` holds exactly when the
stage is Completed; a session in stage Ended keeps the index it had when the
exit occurred, which is always below 4. -/
theorem session_index_invariant (es : List Event) :
    (runEvents initialState es).current_question ≤ 4 ∧
    ((runEvents initialState es).current_question = 4 ↔
      (runEvents initialState es).stage = .completed) := by
  obtain ⟨hcons, hform, hint, hcomp, hend⟩ := inv_runEvents es initialState inv_initial
  cases hs : (runEvents initialState es).stage with
  | consent =>
    obtain ⟨_, hc⟩ := hcons hs
    exact ⟨by omega, ⟨fun h4 => absurd h4 (by omega), fun hsc => absurd hsc (by decide)⟩⟩
  | form =>
    obtain ⟨_, hc⟩ := hform hs
    exact ⟨by omega, ⟨fun h4 => absurd h4 (by omega), fun hsc => absurd hsc (by decide)⟩⟩
  | interview =>
    obtain ⟨_, hc⟩ := hint hs
    exact ⟨by omega, ⟨fun h4 => absurd h4 (by omega), fun hsc => absurd hsc (by decide)⟩⟩
  | completed =>
    obtain ⟨_, hc⟩ := hcomp hs
    exact ⟨by omega, ⟨fun _ => rfl, fun _ => hc⟩⟩
  | ended =>
    obtain ⟨_, hc⟩ := hend hs
    exact ⟨by omega, ⟨fun h4 => absurd h4 (by omega), fun hsc => absurd hsc (by decide)⟩⟩

/-- C5 counterexample: `validate_user_input "ok"` yields reason `too_short`,
not `insufficient_detail`: the trimmed length of `"ok"` is 2 < 3, so the
length rule fires first. -/
theorem validate_ok_is_too_short :
    (validate_user_input "ok").reason = "too_short" ∧
    (validate_user_input "ok").reason ≠ "insufficient_detail" := by decide

/-- C5 (amended): the validator rules are evaluated in order with first match
winning: `validate("")` yields `blank`, `validate("ab")` yields `too_short`,
`validate("aaaaaa")` yields `gibberish`, `validate("ok")` yields `too_short`
(its length 2 matches the earlier length rule; the validator takes no
technical-context flag and always applies the word-count rule, which a
two-word input of length at least 3 such as `"I see"` reaches, yielding
`insufficient_detail`), and `validate("I use caching to reduce load")` is
valid. -/
theorem validator_rule_examples :
    (validate_user_input "").reason = "blank" ∧
    (validate_user_input "ab").reason = "too_short" ∧
    (validate_user_input "aaaaaa").reason = "gibberish" ∧
    (validate_user_input "ok").reason = "too_short" ∧
    (validate_user_input "I see").reason = "insufficient_detail" ∧
    (validate_user_input "I use caching to reduce load").valid = true := by decide

/-- C6 counterexample: a response with five recoverable difficulty/question
pairs whose first four difficulties are Easy, Easy, Medium, Hard is accepted
(truncated to the first four pairs), not treated as a failure. -/
theorem five_pair_response_accepted :
    generate_technical_questions "Python" "2" "English" (some fivePairResponse)
      = [⟨some "Easy", some "q1", none⟩, ⟨some "Easy", some "q2", none⟩,
         ⟨some "Medium", some "q3", none⟩, ⟨some "Hard", some "q4", none⟩] ∧
    generate_technical_questions "Python" "2" "English" (some fivePairResponse)
      ≠ get_fallback_questions "Python" := by decide

/-- C6 (amended): `parse_questions` never returns more than 4 entries — the
scan output is truncated (`questions[:4]`) — so over-generation is
undetectable: for every response text, question generation returns either the
(truncated) parse result or the fallback set, and a response with more than 4
recoverable pairs is accepted whenever its first four difficulties are Easy,
Easy, Medium, Hard. -/
theorem parse_truncates_overlong_response (techStack e l text : String) :
    (parse_questions text).length ≤ 4 ∧
    (generate_technical_questions techStack e l (some text) = parse_questions text ∨
     generate_technical_questions techStack e l (some text)
        = get_fallback_questions techStack) := by
  constructor
  · unfold parse_questions
    rw [List.length_take]
    omega
  · unfold generate_technical_questions
    dsimp only
    by_cases hlen : (parse_questions text).length ≠ 4
    · rw [if_pos hlen]
      right
      rfl
    · rw [if_neg hlen]
      cases hld : lowerDifficulties (parse_questions text) with
      | none =>
        right
        rfl
      | some ds =>
        dsimp only
        by_cases hds : ds = ["easy", "easy", "medium", "hard"]
        · rw [if_pos hds]
          left
          rfl
        · rw [if_neg hds]
          right
          rfl

/-- C7 counterexample: a valid, long, non-hedging answer with a service reply
containing no `EVALUATION:` label is returned as not adequate with the empty
string as its classification — not the heuristic `ADEQUATE` the claim
describes, and not a member of the four-value classification set. -/
theorem no_label_reply_not_classified :
    (evaluate_answer goodAnswer (some noLabelReply)).is_adequate = false ∧
    (evaluate_answer goodAnswer (some noLabelReply)).evaluation_type = "" ∧
    "" ∉ (["ADEQUATE", "NEEDS_CLARIFICATION", "IRRELEVANT", "ERROR"] : List String) := by
  decide

/-- C7 (amended): when no `EVALUATION:` label line is present in the service
reply, no length or hedging heuristic runs: for every valid answer the
returned classification is the empty string and the answer is judged not
adequate (only the feedback text falls back to a default). -/
theorem no_label_no_heuristic (answer reply : String)
    (hvalid : (validate_user_input answer).valid = true)
    (hnolabel : ((strLines reply).all fun l => !(strStartsWith l "EVALUATION:")) = true) :
    (evaluate_answer answer (some reply)).evaluation_type = "" ∧
    (evaluate_answer answer (some reply)).is_adequate = false := by
  have hv : ¬((validate_user_input answer).valid = false) := by simp [hvalid]
  have htype : ((strLines reply).foldl evalScan ("", "")).1 = "" :=
    evalScan_foldl_no_label _ _ hnolabel
  constructor
  · simp only [evaluate_answer, hv, if_false]
    exact htype
  · simp only [evaluate_answer, hv, if_false]
    show (((strLines reply).foldl evalScan ("", "")).1 == "ADEQUATE") = false
    rw [htype]
    rfl

/-- C7 witness: the no-label behaviour evaluated on a concrete valid answer
and label-free reply. -/
theorem no_label_no_heuristic_witness :
    ((validate_user_input goodAnswer).valid = true ∧
     ((strLines noLabelReply).all fun l => !(strStartsWith l "EVALUATION:")) = true) ∧
    ((evaluate_answer goodAnswer (some noLabelReply)).evaluation_type = "" ∧
     (evaluate_answer goodAnswer (some noLabelReply)).is_adequate = false) :=
  ⟨⟨by decide, by decide⟩,
   no_label_no_heuristic goodAnswer noLabelReply (by decide) (by decide)⟩

/-- C8: a session ended early after answering exactly one question still has
4 generated questions, and `save_candidate_data` stores
`completion_rate = len(questions)/4 = 1`, not the `answered/4 = 1/4` that the
claim (and the field name) describe. -/
theorem completion_rate_ignores_answers :
    (runEvents initialState answeredOneTrace).stage = .ended ∧
    (runEvents initialState answeredOneTrace).current_question = 1 ∧
    completion_rate (runEvents initialState answeredOneTrace).questions = 1 ∧
    ((runEvents initialState answeredOneTrace).current_question : Rat) / 4 = 1 / 4 ∧
    (1 : Rat) ≠ 1 / 4 := by
  refine ⟨by decide, by decide, ?_, ?_, by norm_num⟩
  · have h : (runEvents initialState answeredOneTrace).questions.length = 4 := by decide
    simp [completion_rate, h]
  · have h : (runEvents initialState answeredOneTrace).current_question = 1 := by decide
    rw [h]
    norm_num

/-- C9: `save_candidate_data` runs on every script run whose entry stage is
terminal, not exactly once: the ended session followed by two reruns saves
twice, and in general n reruns while in the Ended stage produce n saves for
the same session. -/
theorem save_runs_every_terminal_render :
    (runTrace initialState (endedTrace ++ [Event.refresh, Event.refresh])).2 = 2 ∧
    (∀ n : Nat,
      (runTrace initialState (endedTrace ++ List.replicate n Event.refresh)).2 = n) := by
  constructor
  · decide
  · intro n
    rw [runTrace_append]
    have h2 : (runEvents initialState endedTrace).stage = .ended := by decide
    rw [runTrace_replicate_refresh n _ h2]
    have h1 : (runTrace initialState endedTrace).2 = 0 := by decide
    rw [h1]
    simp

/-- C10 counterexample: when a `QUESTION:` line precedes the first
`DIFFICULTY:` line, the first parsed entry has no difficulty field, so not
every element of `parse_questions` output contains a difficulty. -/
theorem parse_first_element_no_difficulty :
    parse_questions questionFirstResponse
      = [⟨none, some "orphan", none⟩, ⟨some "Easy", some "real", none⟩] ∧
    ((parse_questions questionFirstResponse).headD ⟨none, none, none⟩).difficulty = none := by
  decide

/-- C10 (amended): every element of `parse_questions` output except possibly
the first contains a difficulty field (a difficulty-less entry arises only
from `QUESTION:` lines before the first `DIFFICULTY:` line); an element may
lack the question-text field, so the text lookup is Option-valued, and
question generation can accept a set in which a question has no text. -/
theorem parse_partial_fields :
    (∀ text : String,
      (((parse_questions text).drop 1).all fun q => q.difficulty.isSome) = true) ∧
    parse_questions "DIFFICULTY: Easy\nDIFFICULTY: Hard"
      = [⟨some "Easy", none, none⟩, ⟨some "Hard", none, none⟩] ∧
    (generate_technical_questions "Python" "2" "English" (some missingTextResponse)).getLast?
      = some ⟨some "Hard", none, none⟩ :=
  ⟨parse_tail_diff, by decide, by decide⟩

end TalentScout
